import Mathlib

/-!
Verification of the scrape-job orchestration engine of the
Kleinanzeigen laptop-scraper backend (`backend/scraper.py`,
`backend/app.py`, `backend/sse.py`).

The Python code is shallowly embedded: dictionaries become association
lists with Python-dict update semantics (update in place, append new
keys at the end), sets become `Finset`, floats that are only compared
or scaled become `ℚ`, page navigation and robots decisions become
explicit environment functions, and exceptions become `Except`.
-/

set_option linter.unusedVariables false

namespace KleinScrape

/-- A raw listing record as produced by `KleinanzeigenScraper._parse_listing`.
`external_id` is `none` when the key is absent or `None` in the Python dict;
the Python falsy check also treats the empty string as missing. -/
structure RawListing where
  external_id : Option String
  url : String
  title : String
  price : Option ℚ
  price_negotiable : Bool
  city : Option String
  state : Option String
  description : Option String
  condition : Option String
  posted_at : Option Nat
  image_url : Option String
  seller_type : Option String
deriving DecidableEq

/-- A listing with only an external id set; all other fields empty.
Used for concrete test inputs. -/
def mkListing (id : Option String) : RawListing :=
  ⟨id, "", "", none, false, none, none, none, none, none, none, none⟩

/-- The Python truthiness test `if not ext_id` used in `_merge_task_results`
and in the `_scrape_task` id comprehension: `None` and `''` count as missing. -/
def falsyKey : Option String → Option String
  | none => none
  | some s => if s = "" then none else some s

/-- One entry of the job's `listings_by_id` map:
`{'data': dict, 'keywords': set[str]}`. -/
structure MergedListing where
  data : RawListing
  keywords : Finset String
deriving DecidableEq

/-- The `listings_by_id` dictionary, keyed by external id.  Modelled as an
association list with Python-dict semantics: lookup and update address the
first (in a dict: only) occurrence of a key, new keys are appended. -/
abbrev MergedMap := List (String × MergedListing)

/-- Python `d.get(k)` / `k in d` lookup on the merged map. -/
def dictGet (m : MergedMap) (k : String) : Option MergedListing :=
  match m with
  | [] => none
  | (k2, v) :: rest => if k2 = k then some v else dictGet rest k

/-- Python `d[k] = v`: replace the value at an existing key in place,
append the pair at the end otherwise. -/
def dictSet (m : MergedMap) (k : String) (v : MergedListing) : MergedMap :=
  match m with
  | [] => [(k, v)]
  | (k2, v2) :: rest => if k2 = k then (k2, v) :: rest else (k2, v2) :: dictSet rest k v

/-- The key list of the merged map, in insertion order. -/
def dictKeys (m : MergedMap) : List String := m.map Prod.fst

/-- The net effect of one `_merge_task_results` loop iteration on the entry
stored under the listing's key: insert `{'data': listing, 'keywords': set()}`
for a new key, else overwrite `data` with the newer record (latest wins);
then `keywords.add(keyword)` when the task's keyword is non-empty. -/
def updateEntry (keyword : String) (e : Option MergedListing) (listing : RawListing) :
    MergedListing :=
  let base : MergedListing :=
    match e with
    | none => { data := listing, keywords := (∅ : Finset String) }
    | some entry => { entry with data := listing }
  if keyword = "" then base else { base with keywords := insert keyword base.keywords }

/-- One iteration of the `for listing in task_listings` loop of
`_merge_task_results`: listings with a falsy `external_id` are skipped
(`continue`), otherwise the entry under that id is created or updated. -/
def mergeListing (keyword : String) (m : MergedMap) (listing : RawListing) : MergedMap :=
  match falsyKey listing.external_id with
  | none => m
  | some extId => dictSet m extId (updateEntry keyword (dictGet m extId) listing)

/-- `_merge_task_results(category, keyword, task_listings)` acting on the
`listings_by_id` map (`category` is accepted and unused, as in the source). -/
def merge_task_results (category keyword : String) (task_listings : List RawListing)
    (m : MergedMap) : MergedMap :=
  task_listings.foldl (mergeListing keyword) m

section DictLemmas

theorem dictGet_dictSet (m : MergedMap) (k k2 : String) (v : MergedListing) :
    dictGet (dictSet m k v) k2 = if k = k2 then some v else dictGet m k2 := by
  induction m with
  | nil => simp [dictGet, dictSet]
  | cons hd tl ih =>
    obtain ⟨k3, v3⟩ := hd
    by_cases h3 : k3 = k
    · subst h3
      by_cases h2 : k3 = k2
      · subst h2; simp [dictGet, dictSet]
      · simp [dictGet, dictSet, h2]
    · have h3s : ¬ k = k3 := fun h => h3 h.symm
      by_cases h2 : k3 = k2
      · subst h2
        simp [dictGet, dictSet, h3, h3s]
      · simp [dictGet, dictSet, h3, h2, ih]

theorem dictKeys_dictSet (m : MergedMap) (k : String) (v : MergedListing) :
    dictKeys (dictSet m k v) =
      if k ∈ dictKeys m then dictKeys m else dictKeys m ++ [k] := by
  induction m with
  | nil => simp [dictKeys, dictSet]
  | cons hd tl ih =>
    obtain ⟨k3, v3⟩ := hd
    by_cases h3 : k3 = k
    · subst h3
      simp [dictKeys, dictSet]
    · have h3s : ¬ k = k3 := fun h => h3 h.symm
      have hset : dictSet ((k3, v3) :: tl) k v = (k3, v3) :: dictSet tl k v := by
        simp [dictSet, h3]
      have hcons : dictKeys ((k3, v3) :: dictSet tl k v) = k3 :: dictKeys (dictSet tl k v) := rfl
      rw [hset, hcons, ih]
      by_cases hm : k ∈ dictKeys tl
      · simp only [dictKeys] at hm ⊢
        simp [hm]
      · simp only [dictKeys] at hm ⊢
        simp [hm, h3s]

theorem mem_dictKeys_dictSet (m : MergedMap) (k : String) (v : MergedListing) :
    k ∈ dictKeys (dictSet m k v) := by
  rw [dictKeys_dictSet]
  by_cases hm : k ∈ dictKeys m <;> simp [hm]

theorem dictKeys_dictSet_subset (m : MergedMap) (k k2 : String) (v : MergedListing)
    (h : k2 ∈ dictKeys m) : k2 ∈ dictKeys (dictSet m k v) := by
  rw [dictKeys_dictSet]
  by_cases hm : k ∈ dictKeys m <;> simp [hm, h]

theorem dictGet_eq_none_of_not_mem (m : MergedMap) (k : String)
    (h : k ∉ dictKeys m) : dictGet m k = none := by
  induction m with
  | nil => rfl
  | cons hd tl ih =>
    obtain ⟨k2, v2⟩ := hd
    have hcons : dictKeys ((k2, v2) :: tl) = k2 :: dictKeys tl := rfl
    rw [hcons, List.mem_cons] at h
    push_neg at h
    obtain ⟨hne, hnotin⟩ := h
    have hne2 : ¬ k2 = k := fun hh => hne hh.symm
    simp [dictGet, hne2, ih hnotin]

/-- Two merged maps with duplicate-free keys are equal once their key lists
and all lookups agree. -/
theorem dict_ext (m1 : MergedMap) (hnd : (dictKeys m1).Nodup) :
    ∀ m2 : MergedMap, dictKeys m1 = dictKeys m2 →
      (∀ k, dictGet m1 k = dictGet m2 k) → m1 = m2 := by
  induction m1 with
  | nil =>
    intro m2 hk hg
    cases m2 with
    | nil => rfl
    | cons hd tl => exact absurd hk (by simp [dictKeys])
  | cons hd tl ih =>
    intro m2 hk hg
    obtain ⟨k, v⟩ := hd
    cases m2 with
    | nil => exact absurd hk (by simp [dictKeys])
    | cons hd2 tl2 =>
      obtain ⟨k2, v2⟩ := hd2
      have hk' : k :: dictKeys tl = k2 :: dictKeys tl2 := hk
      injection hk' with hk1 hk2
      subst hk1
      have hv : v = v2 := by
        have hgk := hg k
        simp only [dictGet, if_pos rfl] at hgk
        exact Option.some.inj hgk
      subst hv
      have hnd' : k ∉ dictKeys tl ∧ (dictKeys tl).Nodup := by
        have hh : (k :: dictKeys tl).Nodup := hnd
        rw [List.nodup_cons] at hh
        exact hh
      replace hnd := hnd'
      have hknotin2 : k ∉ dictKeys tl2 := hk2 ▸ hnd.1
      have htail : ∀ k3, dictGet tl k3 = dictGet tl2 k3 := by
        intro k3
        by_cases h3 : k3 = k
        · subst h3
          rw [dictGet_eq_none_of_not_mem tl k3 hnd.1,
            dictGet_eq_none_of_not_mem tl2 k3 hknotin2]
        · have hgk := hg k3
          have hne : ¬ k = k3 := fun hh => h3 hh.symm
          simp only [dictGet, if_neg hne] at hgk
          exact hgk
      exact congrArg (fun t => (k, v) :: t) (ih hnd.2 tl2 hk2 htail)

end DictLemmas

section MergeLemmas

/-- `updateEntry` as a transformer of the optional entry stored under a key. -/
def applyUpd (keyword : String) (e : Option MergedListing) (listing : RawListing) :
    Option MergedListing :=
  some (updateEntry keyword e listing)

/-- The keyword provenance set held by an optional map entry. -/
def entryKeywords : Option MergedListing → Finset String
  | none => ∅
  | some e => e.keywords

/-- The provenance set after one merge touch of an entry: unchanged for the
empty keyword, otherwise with the task keyword inserted. -/
def kwAfter (keyword : String) (e : Option MergedListing) : Finset String :=
  if keyword = "" then entryKeywords e else insert keyword (entryKeywords e)

/-- The last element of the nonempty list `l :: ls`. -/
def lastListing (l : RawListing) : List RawListing → RawListing
  | [] => l
  | l2 :: ls => lastListing l2 ls

theorem updateEntry_eq (keyword : String) (e : Option MergedListing) (listing : RawListing) :
    updateEntry keyword e listing = { data := listing, keywords := kwAfter keyword e } := by
  cases e <;> by_cases hkw : keyword = "" <;>
    simp [updateEntry, kwAfter, entryKeywords, hkw]

theorem kwAfter_applyUpd (keyword : String) (e : Option MergedListing) (listing : RawListing) :
    kwAfter keyword (applyUpd keyword e listing) = kwAfter keyword e := by
  rw [applyUpd, updateEntry_eq]
  by_cases hkw : keyword = "" <;>
    simp [kwAfter, entryKeywords, hkw, Finset.insert_idem]

/-- The lookup under one key after a whole `_merge_task_results` call is the
fold of per-listing entry updates over exactly the batch listings keyed by
that id. -/
theorem dictGet_merge (category keyword : String) (batch : List RawListing) :
    ∀ (m : MergedMap) (k : String),
      dictGet (merge_task_results category keyword batch m) k =
        (batch.filter (fun l => falsyKey l.external_id = some k)).foldl
          (applyUpd keyword) (dictGet m k) := by
  induction batch with
  | nil => intro m k; rfl
  | cons l rest ih =>
    intro m k
    have hstep : merge_task_results category keyword (l :: rest) m =
        merge_task_results category keyword rest (mergeListing keyword m l) := rfl
    rw [hstep]
    cases hfk : falsyKey l.external_id with
    | none =>
      have hm : mergeListing keyword m l = m := by simp [mergeListing, hfk]
      have hcond : ¬ (falsyKey l.external_id = some k) := by simp [hfk]
      rw [hm, ih m k, List.filter_cons_of_neg (by simpa using hcond)]
    | some k2 =>
      by_cases hk2 : k2 = k
      · subst hk2
        have hm : mergeListing keyword m l =
            dictSet m k2 (updateEntry keyword (dictGet m k2) l) := by
          simp [mergeListing, hfk]
        have hget : dictGet (mergeListing keyword m l) k2 =
            applyUpd keyword (dictGet m k2) l := by
          rw [hm, dictGet_dictSet, if_pos rfl, applyUpd]
        rw [ih (mergeListing keyword m l) k2, hget,
          List.filter_cons_of_pos (by simpa using hfk), List.foldl_cons]
      · have hm : mergeListing keyword m l =
            dictSet m k2 (updateEntry keyword (dictGet m k2) l) := by
          simp [mergeListing, hfk]
        have hget : dictGet (mergeListing keyword m l) k = dictGet m k := by
          rw [hm, dictGet_dictSet, if_neg hk2]
        have hcond : ¬ (falsyKey l.external_id = some k) := by simp [hfk, hk2]
        rw [ih (mergeListing keyword m l) k, hget,
          List.filter_cons_of_neg (by simpa using hcond)]

/-- Folding entry updates over a nonempty listing list stores the last
listing's record (latest wins) and the provenance set grown once. -/
theorem foldl_applyUpd_cons (keyword : String) :
    ∀ (ls : List RawListing) (l : RawListing) (e : Option MergedListing),
      (l :: ls).foldl (applyUpd keyword) e =
        some { data := lastListing l ls, keywords := kwAfter keyword e } := by
  intro ls
  induction ls with
  | nil =>
    intro l e
    simp [applyUpd, updateEntry_eq, lastListing]
  | cons l2 ls ih =>
    intro l e
    have h1 : (l :: l2 :: ls).foldl (applyUpd keyword) e =
        (l2 :: ls).foldl (applyUpd keyword) (applyUpd keyword e l) := rfl
    rw [h1, ih l2 (applyUpd keyword e l), kwAfter_applyUpd]
    rfl

theorem entryKeywords_subset_foldl (keyword : String) :
    ∀ (ls : List RawListing) (e : Option MergedListing),
      entryKeywords e ⊆ entryKeywords (ls.foldl (applyUpd keyword) e) := by
  intro ls
  induction ls with
  | nil => intro e; exact fun x hx => hx
  | cons l ls ih =>
    intro e
    refine subset_trans ?_ (ih (applyUpd keyword e l))
    rw [applyUpd, updateEntry_eq]
    by_cases hkw : keyword = "" <;>
      simp [entryKeywords, kwAfter, hkw, Finset.subset_insert]

theorem mergeListing_keys_mono (keyword : String) (m : MergedMap) (l : RawListing)
    (k : String) (h : k ∈ dictKeys m) : k ∈ dictKeys (mergeListing keyword m l) := by
  cases hfk : falsyKey l.external_id with
  | none => simpa [mergeListing, hfk] using h
  | some k2 =>
    simp only [mergeListing, hfk]
    exact dictKeys_dictSet_subset m k2 k _ h

theorem merge_keys_mono (category keyword : String) (batch : List RawListing) :
    ∀ (m : MergedMap) (k : String), k ∈ dictKeys m →
      k ∈ dictKeys (merge_task_results category keyword batch m) := by
  induction batch with
  | nil => intro m k h; exact h
  | cons l rest ih =>
    intro m k h
    exact ih (mergeListing keyword m l) k (mergeListing_keys_mono keyword m l k h)

theorem merge_mem_keys (category keyword : String) (batch : List RawListing) :
    ∀ (m : MergedMap) (l : RawListing) (k : String), l ∈ batch →
      falsyKey l.external_id = some k →
      k ∈ dictKeys (merge_task_results category keyword batch m) := by
  induction batch with
  | nil => intro m l k h; exact absurd h (List.not_mem_nil l)
  | cons l2 rest ih =>
    intro m l k hmem hfk
    rcases List.mem_cons.mp hmem with heq | htl
    · subst heq
      refine merge_keys_mono category keyword rest (mergeListing keyword m l) k ?_
      simp only [mergeListing, hfk]
      exact mem_dictKeys_dictSet m k _
    · exact ih (mergeListing keyword m l2) l k htl hfk

theorem merge_keys_id_of_sub (category keyword : String) (batch : List RawListing) :
    ∀ (m : MergedMap),
      (∀ l ∈ batch, ∀ k, falsyKey l.external_id = some k → k ∈ dictKeys m) →
      dictKeys (merge_task_results category keyword batch m) = dictKeys m := by
  induction batch with
  | nil => intro m h; rfl
  | cons l rest ih =>
    intro m h
    have hkeys : dictKeys (mergeListing keyword m l) = dictKeys m := by
      cases hfk : falsyKey l.external_id with
      | none => simp [mergeListing, hfk]
      | some k2 =>
        have hk2 : k2 ∈ dictKeys m := h l (List.mem_cons_self l rest) k2 hfk
        simp only [mergeListing, hfk]
        rw [dictKeys_dictSet, if_pos hk2]
    have hrest : ∀ l2 ∈ rest, ∀ k, falsyKey l2.external_id = some k →
        k ∈ dictKeys (mergeListing keyword m l) := by
      intro l2 hl2 k hfk2
      rw [hkeys]
      exact h l2 (List.mem_cons_of_mem l hl2) k hfk2
    have := ih (mergeListing keyword m l) hrest
    calc dictKeys (merge_task_results category keyword (l :: rest) m)
        = dictKeys (merge_task_results category keyword rest (mergeListing keyword m l)) := rfl
      _ = dictKeys (mergeListing keyword m l) := this
      _ = dictKeys m := hkeys

theorem mergeListing_nodup (keyword : String) (m : MergedMap) (l : RawListing)
    (h : (dictKeys m).Nodup) : (dictKeys (mergeListing keyword m l)).Nodup := by
  cases hfk : falsyKey l.external_id with
  | none => simpa [mergeListing, hfk] using h
  | some k2 =>
    simp only [mergeListing, hfk]
    rw [dictKeys_dictSet]
    by_cases hm : k2 ∈ dictKeys m
    · simpa [hm] using h
    · rw [if_neg hm, List.nodup_append]
      refine ⟨h, List.nodup_singleton k2, ?_⟩
      intro a ha hk
      rw [List.mem_singleton] at hk
      exact hm (hk ▸ ha)

theorem merge_nodup (category keyword : String) (batch : List RawListing) :
    ∀ (m : MergedMap), (dictKeys m).Nodup →
      (dictKeys (merge_task_results category keyword batch m)).Nodup := by
  induction batch with
  | nil => intro m h; exact h
  | cons l rest ih =>
    intro m h
    exact ih (mergeListing keyword m l) (mergeListing_nodup keyword m l h)

end MergeLemmas

/-- C3: merging a task's listing batch into the externalId-keyed result map
is idempotent: for every map state (with duplicate-free keys, as any dict
state has), category, keyword, and batch, applying `_merge_task_results`
twice with the same arguments yields exactly the same map as applying it
once — same entries, same latest-wins data, same keyword provenance sets. -/
theorem merge_task_results_idempotent (m : MergedMap) (category keyword : String)
    (batch : List RawListing) (hnd : (dictKeys m).Nodup) :
    merge_task_results category keyword batch
        (merge_task_results category keyword batch m) =
      merge_task_results category keyword batch m := by
  have hndA : (dictKeys (merge_task_results category keyword batch m)).Nodup :=
    merge_nodup category keyword batch m hnd
  have hndAA : (dictKeys (merge_task_results category keyword batch
      (merge_task_results category keyword batch m))).Nodup :=
    merge_nodup category keyword batch _ hndA
  refine dict_ext _ hndAA _ ?_ ?_
  · refine merge_keys_id_of_sub category keyword batch _ ?_
    intro l hl k hfk
    exact merge_mem_keys category keyword batch m l k hl hfk
  · intro k
    rw [dictGet_merge, dictGet_merge]
    cases hfil : batch.filter (fun l => falsyKey l.external_id = some k) with
    | nil => rfl
    | cons l ls =>
      rw [foldl_applyUpd_cons, foldl_applyUpd_cons]
      have hstable : kwAfter keyword
          (some { data := lastListing l ls, keywords := kwAfter keyword (dictGet m k) }) =
          kwAfter keyword (dictGet m k) := by
        by_cases hkw : keyword = "" <;>
          simp [kwAfter, entryKeywords, hkw, Finset.insert_idem]
      rw [hstable]

/-- Witness for C3 at a concrete map and batch containing a duplicate id and
a falsy-id record. -/
theorem merge_task_results_idempotent_witness :
    (dictKeys ([] : MergedMap)).Nodup ∧
      merge_task_results "c278" "dell" [mkListing (some "111"), mkListing (some "111"),
          mkListing none]
        (merge_task_results "c278" "dell" [mkListing (some "111"), mkListing (some "111"),
          mkListing none] []) =
      merge_task_results "c278" "dell" [mkListing (some "111"), mkListing (some "111"),
        mkListing none] [] :=
  ⟨by decide, merge_task_results_idempotent [] "c278" "dell"
    [mkListing (some "111"), mkListing (some "111"), mkListing none] (by decide)⟩

/-- C4: every application of the merge step preserves the merged-map
invariants: keys stay duplicate-free, entries are only added or updated
(no key is ever removed), and for every externalId the provenance keyword
set after the merge is a superset of its value before. -/
theorem merge_task_results_invariants (m : MergedMap) (category keyword : String)
    (batch : List RawListing) (hnd : (dictKeys m).Nodup) :
    (dictKeys (merge_task_results category keyword batch m)).Nodup ∧
      (∀ k, k ∈ dictKeys m →
        k ∈ dictKeys (merge_task_results category keyword batch m)) ∧
      (∀ k, entryKeywords (dictGet m k) ⊆
        entryKeywords (dictGet (merge_task_results category keyword batch m) k)) := by
  refine ⟨merge_nodup category keyword batch m hnd,
    fun k => merge_keys_mono category keyword batch m k, fun k => ?_⟩
  rw [dictGet_merge]
  exact entryKeywords_subset_foldl keyword _ (dictGet m k)

/-- Witness for C4 at a concrete one-entry map and a batch updating it. -/
theorem merge_task_results_invariants_witness :
    (dictKeys [("111", MergedListing.mk (mkListing (some "111")) ∅)]).Nodup ∧
      ((dictKeys (merge_task_results "c278" "hp" [mkListing (some "111"),
          mkListing (some "222")]
          [("111", MergedListing.mk (mkListing (some "111")) ∅)])).Nodup ∧
        (∀ k, k ∈ dictKeys [("111", MergedListing.mk (mkListing (some "111")) ∅)] →
          k ∈ dictKeys (merge_task_results "c278" "hp" [mkListing (some "111"),
            mkListing (some "222")]
            [("111", MergedListing.mk (mkListing (some "111")) ∅)])) ∧
        (∀ k, entryKeywords (dictGet
            [("111", MergedListing.mk (mkListing (some "111")) ∅)] k) ⊆
          entryKeywords (dictGet (merge_task_results "c278" "hp"
            [mkListing (some "111"), mkListing (some "222")]
            [("111", MergedListing.mk (mkListing (some "111")) ∅)]) k))) :=
  ⟨by decide, merge_task_results_invariants
    [("111", MergedListing.mk (mkListing (some "111")) ∅)] "c278" "hp"
    [mkListing (some "111"), mkListing (some "222")] (by decide)⟩

/-- C10: a listing whose `external_id` is missing (`None`) or the empty
string is silently dropped by the merge step: merging a single such record
leaves the map unchanged, and a batch containing it merges to exactly the
same map as the batch with that record removed. -/
theorem merge_task_results_drops_falsy_id (m : MergedMap) (category keyword : String)
    (pre post : List RawListing) (l : RawListing)
    (hfalsy : l.external_id = none ∨ l.external_id = some "") :
    merge_task_results category keyword [l] m = m ∧
      merge_task_results category keyword (pre ++ l :: post) m =
        merge_task_results category keyword (pre ++ post) m := by
  have hfk : falsyKey l.external_id = none := by
    rcases hfalsy with h | h <;> simp [falsyKey, h]
  have hskip : ∀ m2 : MergedMap, mergeListing keyword m2 l = m2 := by
    intro m2; simp [mergeListing, hfk]
  constructor
  · exact hskip m
  · rw [merge_task_results, merge_task_results, List.foldl_append, List.foldl_append,
      List.foldl_cons, hskip]

/-- Witness for C10: a record with empty-string id is dropped both alone and
inside a batch. -/
theorem merge_task_results_drops_falsy_id_witness :
    ((mkListing (some "")).external_id = none ∨
        (mkListing (some "")).external_id = some "") ∧
      (merge_task_results "c278" "dell" [mkListing (some "")] [] = [] ∧
        merge_task_results "c278" "dell"
            ([mkListing (some "1")] ++ mkListing (some "") :: [mkListing (some "2")]) [] =
          merge_task_results "c278" "dell" ([mkListing (some "1")] ++ [mkListing (some "2")]) []) :=
  ⟨by decide, merge_task_results_drops_falsy_id [] "c278" "dell"
    [mkListing (some "1")] [mkListing (some "2")] (mkListing (some "")) (by decide)⟩

section ScrapeTask

/-- The external ids collected from one page's listings in `_scrape_task`:
the id comprehension keeps only truthy `external_id` values. -/
def pageExtIds (page_listings : List RawListing) : List String :=
  page_listings.filterMap (fun l => falsyKey l.external_id)

/-- The pagination loop of `_scrape_task`, iterating over the remaining page
numbers of `range(1, page_limit + 1)` in order.  `pages page_num` is the
listing batch `scraper.scrape_page` returns for that page (a plain value:
`scrape_page` is total).  Carried state: the job-wide `seen_external_ids`
set and the `no_new_pages` counter; result:
`(listings_data, pages_scraped_local, seen_external_ids)`. -/
def scrape_task_go (pages : Nat → List RawListing) :
    List Nat → Finset String → Nat → List RawListing × Nat × Finset String
  | [], seen, _ => ([], 0, seen)
  | page_num :: rest, seen, no_new_pages =>
    let page_listings := pages page_num
    let ext_ids := pageExtIds page_listings
    let seen2 := seen ∪ ext_ids.toFinset
    let new_count := seen2.card - seen.card
    let nn := if new_count = 0 then no_new_pages + 1 else 0
    if page_listings = [] ∨ 2 ≤ nn then (page_listings, 1, seen2)
    else
      let r := scrape_task_go pages rest seen2 nn
      (page_listings ++ r.1, r.2.1 + 1, r.2.2)

/-- `_scrape_task` for one task: the robots gate (a soft skip returning
`([], 0)` and leaving the seen set untouched) followed by the pagination
loop started at page 1 with `no_new_pages = 0`.  `allowed` is the value of
`robots_checker.is_allowed(urlparse(scrape_url).path)` for this task. -/
def scrape_task (allowed : Bool) (pages : Nat → List RawListing) (page_limit : Nat)
    (seen : Finset String) : List RawListing × Nat × Finset String :=
  if allowed then scrape_task_go pages (List.range' 1 page_limit) seen 0
  else ([], 0, seen)

theorem scrape_task_go_count_le (pages : Nat → List RawListing) :
    ∀ (l : List Nat) (seen : Finset String) (nn : Nat),
      (scrape_task_go pages l seen nn).2.1 ≤ l.length := by
  intro l
  induction l with
  | nil => intro seen nn; simp [scrape_task_go]
  | cons page_num rest ih =>
    intro seen nn
    simp only [scrape_task_go]
    split <;> split <;> simp <;> exact ih _ _

theorem scrape_task_go_count_pos (pages : Nat → List RawListing)
    (page_num : Nat) (rest : List Nat) (seen : Finset String) (nn : Nat) :
    1 ≤ (scrape_task_go pages (page_num :: rest) seen nn).2.1 := by
  simp only [scrape_task_go]
  split <;> split <;> simp

/-- Ten distinct listings, the "page 1 yields 10 new ids" batch of the
spec's pagination scenario. -/
def idsTen : List RawListing :=
  [mkListing (some "a"), mkListing (some "b"), mkListing (some "c"),
   mkListing (some "d"), mkListing (some "e"), mkListing (some "f"),
   mkListing (some "g"), mkListing (some "h"), mkListing (some "i"),
   mkListing (some "j")]

/-- Page environment where every page repeats the same ten listings:
page 1 yields 10 new ids, every later page only duplicates. -/
def pagesAllDup : Nat → List RawListing := fun _ => idsTen

/-- Page environment where page 3 adds one genuinely new id on top of the
duplicates and page 4 is empty. -/
def pagesNewOnPage3 : Nat → List RawListing := fun n =>
  if n = 3 then mkListing (some "z") :: idsTen
  else if n = 4 then [] else idsTen

/-- C2: the `_scrape_task` pagination loop walks pages `1..page_limit` in
order and stops immediately after a zero-listing page or after the second
consecutive page with zero new unique ids, counting that final page:
(1) with at least one page configured, the pages-scraped count is between 1
and `page_limit`; (2) a zero-listing page ends the loop at once with that
page counted; (3) a second consecutive no-new page ends the loop at once;
(4) ten new ids on page 1 and only duplicates after stop the loop with
`pagesScraped = 3`; (5) a new id on page 3 resets the counter and the loop
continues to page 4. -/
theorem scrape_task_pagination :
    (∀ (pages : Nat → List RawListing) (seen : Finset String) (page_limit : Nat),
        1 ≤ page_limit →
        1 ≤ (scrape_task true pages page_limit seen).2.1 ∧
          (scrape_task true pages page_limit seen).2.1 ≤ page_limit) ∧
      (∀ (pages : Nat → List RawListing) (page_num : Nat) (rest : List Nat)
          (seen : Finset String) (nn : Nat), pages page_num = [] →
          (scrape_task_go pages (page_num :: rest) seen nn).2.1 = 1) ∧
      (∀ (pages : Nat → List RawListing) (page_num : Nat) (rest : List Nat)
          (seen : Finset String),
          (seen ∪ (pageExtIds (pages page_num)).toFinset).card = seen.card →
          (scrape_task_go pages (page_num :: rest) seen 1).2.1 = 1) ∧
      (scrape_task true pagesAllDup 5 ∅).2.1 = 3 ∧
      (scrape_task true pagesNewOnPage3 5 ∅).2.1 = 4 := by
  refine ⟨?_, ?_, ?_, by decide, by decide⟩
  · intro pages seen page_limit h
    obtain ⟨m, rfl⟩ : ∃ m, page_limit = m + 1 :=
      ⟨page_limit - 1, (Nat.succ_pred_eq_of_pos h).symm⟩
    constructor
    · rw [scrape_task, if_pos rfl, List.range'_succ]
      exact scrape_task_go_count_pos pages _ _ _ _
    · rw [scrape_task, if_pos rfl]
      have := scrape_task_go_count_le pages (List.range' 1 (m + 1)) seen 0
      simpa [List.length_range'] using this
  · intro pages page_num rest seen nn h
    simp [scrape_task_go, h, pageExtIds]
  · intro pages page_num rest seen h
    simp [scrape_task_go, h, Nat.sub_self]

/-- Witness for C2: the general bound at the all-duplicates environment and
the zero-listing stop at an empty page environment. -/
theorem scrape_task_pagination_witness :
    (1 ≤ 5 ∧
      (1 ≤ (scrape_task true pagesAllDup 5 ∅).2.1 ∧
        (scrape_task true pagesAllDup 5 ∅).2.1 ≤ 5)) ∧
      ((fun _ : Nat => ([] : List RawListing)) 1 = [] ∧
        (scrape_task_go (fun _ => []) (1 :: [2, 3]) ∅ 0).2.1 = 1) :=
  ⟨⟨by decide, scrape_task_pagination.1 pagesAllDup ∅ 5 (by decide)⟩,
    ⟨rfl, scrape_task_pagination.2.1 (fun _ => []) 1 [2, 3] ∅ 0 rfl⟩⟩

end ScrapeTask

section TaskPlanner

/-- Python `str.strip()`: drop leading and trailing whitespace.  Implemented
over the character list so the kernel can evaluate it. -/
def pyStrip (s : String) : String :=
  String.mk (((s.data.dropWhile Char.isWhitespace).reverse.dropWhile
    Char.isWhitespace).reverse)

/-- Helper for `pySplitComma`: accumulate the current field (reversed) while
walking the characters. -/
def splitCommaAux : List Char → List Char → List (List Char)
  | [], acc => [acc.reverse]
  | c :: cs, acc =>
    if c = ',' then acc.reverse :: splitCommaAux cs []
    else splitCommaAux cs (c :: acc)

/-- Python `str.split(',')`: split on every comma, keeping empty fields;
the empty string yields `['']`. -/
def pySplitComma (s : String) : List String :=
  (splitCommaAux s.data []).map String.mk

/-- The comma-separated config parsing used for both keywords and categories
in `_run_scraper_job`: strip the raw value, split on commas, strip each
entry, and keep only truthy (non-empty) entries. -/
def strip_split (raw : String) : List String :=
  ((pySplitComma (pyStrip raw)).map pyStrip).filter (fun s => s ≠ "")

/-- `keywords_list`, with `['']` substituted when no keyword survives
trimming, so the base URL is scraped once without a keyword filter. -/
def plan_keywords (keywords_raw : String) : List String :=
  let l := strip_split keywords_raw
  if l = [] then [""] else l

/-- `categories_list`, defaulting to `['c278']` when empty. -/
def plan_categories (categories_raw : String) : List String :=
  let l := strip_split categories_raw
  if l = [] then ["c278"] else l

/-- `tasks`: the category-major, keyword-minor cross-product comprehension
of `_run_scraper_job`. -/
def plan_tasks (categories_raw keywords_raw : String) : List (String × String) :=
  (plan_categories categories_raw).flatMap
    (fun category => (plan_keywords keywords_raw).map (fun keyword => (category, keyword)))

/-- `total_tasks = len(tasks) or 1`. -/
def total_tasks (categories_raw keywords_raw : String) : Nat :=
  let n := (plan_tasks categories_raw keywords_raw).length
  if n = 0 then 1 else n

/-- The `(i * |l2| + j)`-th element of the category-major cross-product is
the pair of the `i`-th left element and `j`-th right element. -/
theorem flatMap_pair_getElem (l1 l2 : List String) :
    ∀ (i j : Nat) (hi : i < l1.length) (hj : j < l2.length),
      (l1.flatMap (fun c => l2.map (fun k => (c, k))))[i * l2.length + j]? =
        some (l1.get ⟨i, hi⟩, l2.get ⟨j, hj⟩) := by
  induction l1 with
  | nil => intro i j hi hj; exact absurd hi (Nat.not_lt_zero i)
  | cons a t ih =>
    intro i j hi hj
    rw [List.flatMap_cons]
    cases i with
    | zero =>
      have hj2 : 0 * l2.length + j < (l2.map (fun k => (a, k))).length := by
        simpa using hj
      rw [List.getElem?_append_left hj2]
      simp only [Nat.zero_mul, Nat.zero_add, List.getElem?_map]
      rw [List.getElem?_eq_getElem hj]
      rfl
    | succ i =>
      have hlen : (l2.map (fun k => (a, k))).length = l2.length := by simp
      have hge : (l2.map (fun k => (a, k))).length ≤ (i + 1) * l2.length + j := by
        rw [hlen, Nat.succ_mul]; omega
      rw [List.getElem?_append_right hge]
      have hidx : (i + 1) * l2.length + j - (l2.map (fun k => (a, k))).length =
          i * l2.length + j := by
        rw [hlen, Nat.succ_mul]; omega
      rw [hidx]
      exact ih i j (Nat.lt_of_succ_lt_succ hi) hj

/-- C6: task planning produces exactly the category-major, keyword-minor
cross-product of the trimmed non-empty category and keyword lists: the task
count is the product of the list lengths, membership is componentwise, an
empty trimmed keyword list is replaced by the single empty keyword, the
element at index `i * |keywords| + j` is `(categories[i], keywords[j])`,
and the reported total equals `max(len(tasks), 1)`. -/
theorem plan_tasks_cross_product :
    (∀ categories_raw keywords_raw : String,
      total_tasks categories_raw keywords_raw =
        max (plan_tasks categories_raw keywords_raw).length 1) ∧
      (∀ categories_raw keywords_raw : String,
        (plan_tasks categories_raw keywords_raw).length =
          (plan_categories categories_raw).length *
            (plan_keywords keywords_raw).length) ∧
      (∀ (categories_raw keywords_raw : String) (c k : String),
        (c, k) ∈ plan_tasks categories_raw keywords_raw ↔
          c ∈ plan_categories categories_raw ∧ k ∈ plan_keywords keywords_raw) ∧
      (∀ keywords_raw : String, strip_split keywords_raw = [] →
        plan_keywords keywords_raw = [""]) ∧
      (∀ (categories_raw keywords_raw : String) (i j : Nat)
          (hi : i < (plan_categories categories_raw).length)
          (hj : j < (plan_keywords keywords_raw).length),
        (plan_tasks categories_raw keywords_raw)[i *
            (plan_keywords keywords_raw).length + j]? =
          some ((plan_categories categories_raw).get ⟨i, hi⟩,
            (plan_keywords keywords_raw).get ⟨j, hj⟩)) := by
  have hprod : ∀ categories_raw keywords_raw : String,
      plan_tasks categories_raw keywords_raw =
        plan_categories categories_raw ×ˢ plan_keywords keywords_raw := by
    intro categories_raw keywords_raw; rfl
  refine ⟨?_, ?_, ?_, ?_, ?_⟩
  · intro categories_raw keywords_raw
    rw [total_tasks]
    by_cases h : (plan_tasks categories_raw keywords_raw).length = 0 <;>
      simp [h] <;> omega
  · intro categories_raw keywords_raw
    rw [hprod, List.length_product]
  · intro categories_raw keywords_raw c k
    rw [hprod, List.mem_product]
  · intro keywords_raw h
    simp [plan_keywords, h]
  · intro categories_raw keywords_raw i j hi hj
    exact flatMap_pair_getElem _ _ i j hi hj

/-- Witness for C6 at the concrete configuration
`categories = "c278, c245"`, `keywords = " dell ,, lenovo "`: the task at
index `1 * 2 + 0` is `("c245", "dell")`. -/
theorem plan_tasks_cross_product_witness :
    1 < (plan_categories "c278, c245").length ∧
      0 < (plan_keywords " dell ,, lenovo ").length ∧
      (plan_tasks "c278, c245" " dell ,, lenovo ")[1 *
          (plan_keywords " dell ,, lenovo ").length + 0]? =
        some ("c245", "dell") := by
  refine ⟨by decide, by decide, ?_⟩
  have h := plan_tasks_cross_product.2.2.2.2 "c278, c245" " dell ,, lenovo "
    1 0 (by decide) (by decide)
  rw [h]
  decide

end TaskPlanner

section ScraperInit

/-- The configuration a `KleinanzeigenScraper` holds after `__init__`.
`delay_seconds` is a float in the source; it is only compared and scaled,
so it is modelled as a rational. -/
structure ScraperConfigState where
  base_url : String
  delay_seconds : ℚ
  page_limit : Nat
  browser_type : String
  has_proxy : Bool
deriving DecidableEq

/-- `KleinanzeigenScraper.__init__`: stores the configuration, clamping the
requested delay with `max(delay_seconds, 2.0)` to enforce a minimum delay. -/
def scraper_init (base_url : String) (delay_seconds : ℚ) (page_limit : Nat)
    (browser_type : String) (has_proxy : Bool) : ScraperConfigState :=
  { base_url := base_url, delay_seconds := max delay_seconds 2,
    page_limit := page_limit, browser_type := browser_type, has_proxy := has_proxy }

/-- The sleep used by the no-response, server-error and exception retries of
`scrape_page` and for the scrape() inter-page wait doubling:
`delay_seconds * 2`. -/
def backoff_simple (s : ScraperConfigState) : ℚ := s.delay_seconds * 2

/-- The escalating backoff used for 429 and blocked-page retries:
`delay_seconds * 2 ** (retry_count + 1)`. -/
def backoff_exponential (s : ScraperConfigState) (retry_count : Nat) : ℚ :=
  s.delay_seconds * 2 ^ (retry_count + 1)

/-- C9: every constructed scraper satisfies `delay_seconds ≥ 2` whatever
delay the caller requested, so the inter-page politeness delay and every
backoff derived from `delay_seconds` is at least 2 seconds. -/
theorem scraper_init_min_delay (base_url : String) (delay_seconds : ℚ)
    (page_limit : Nat) (browser_type : String) (has_proxy : Bool) :
    2 ≤ (scraper_init base_url delay_seconds page_limit browser_type
        has_proxy).delay_seconds ∧
      2 ≤ backoff_simple (scraper_init base_url delay_seconds page_limit
        browser_type has_proxy) ∧
      ∀ retry_count : Nat,
        2 ≤ backoff_exponential (scraper_init base_url delay_seconds page_limit
          browser_type has_proxy) retry_count := by
  have hd : 2 ≤ (scraper_init base_url delay_seconds page_limit browser_type
      has_proxy).delay_seconds := le_max_right delay_seconds 2
  have hd0 : (0 : ℚ) ≤ (scraper_init base_url delay_seconds page_limit browser_type
      has_proxy).delay_seconds := le_trans (by norm_num) hd
  refine ⟨hd, ?_, ?_⟩
  · calc (2 : ℚ) ≤ _ := hd
      _ ≤ _ := le_mul_of_one_le_right hd0 (by norm_num)
  · intro retry_count
    have h1 : (1 : ℚ) ≤ 2 ^ (retry_count + 1) := one_le_pow₀ (by norm_num)
    calc (2 : ℚ) ≤ _ := hd
      _ ≤ _ := le_mul_of_one_le_right hd0 h1

end ScraperInit

section ScrapePage

/-- The observable outcome of one navigation attempt inside the `try` body
of `scrape_page`: the attempt raised (modelling any exception caught by the
handler), `page.goto` returned no response, or it returned a response with
an HTTP status together with what the rendered page then holds — whether
the block/challenge heuristic fires on the HTML and the per-article parse
results of the listing elements found (`none` for an article that
`_parse_listing` rejects or throws on). -/
inductive AttemptOutcome where
  | navException (msg : String)
  | noResponse
  | response (status : Nat) (blocked : Bool) (articles : List (Option RawListing))

/-- `MAX_RETRIES` of `scrape_page`. -/
def MAX_RETRIES : Nat := 3

/-- `scrape_page(page, url, retry_count)` with the outcome of attempt `n`
(the call at `retry_count = n`) supplied by `env`.  Result: the Except
value of the call (an `.error` would model an exception escaping to the
caller) paired with the number of attempts performed.  Branch order follows
the source: no response, 429, 5xx, 4xx, blocked-page heuristic,
zero-articles single retry, then the per-article parse loop that skips
failed articles. -/
def scrape_page_run (env : Nat → AttemptOutcome) (retry_count : Nat) :
    Except String (List RawListing) × Nat :=
  match env retry_count with
  | .navException _ =>
    if h : retry_count < MAX_RETRIES then
      let r := scrape_page_run env (retry_count + 1)
      (r.1, r.2 + 1)
    else (.ok [], 1)
  | .noResponse =>
    if h : retry_count < MAX_RETRIES then
      let r := scrape_page_run env (retry_count + 1)
      (r.1, r.2 + 1)
    else (.ok [], 1)
  | .response status blocked articles =>
    if status = 429 then
      if h : retry_count < MAX_RETRIES then
        let r := scrape_page_run env (retry_count + 1)
        (r.1, r.2 + 1)
      else (.ok [], 1)
    else if 500 ≤ status then
      if h : retry_count < MAX_RETRIES then
        let r := scrape_page_run env (retry_count + 1)
        (r.1, r.2 + 1)
      else (.ok [], 1)
    else if 400 ≤ status then (.ok [], 1)
    else if blocked then
      if h : retry_count < MAX_RETRIES then
        let r := scrape_page_run env (retry_count + 1)
        (r.1, r.2 + 1)
      else (.ok [], 1)
    else if articles.length = 0 then
      if h : retry_count < 1 then
        let r := scrape_page_run env (retry_count + 1)
        (r.1, r.2 + 1)
      else (.ok (articles.filterMap id), 1)
    else (.ok (articles.filterMap id), 1)
termination_by MAX_RETRIES + 1 - retry_count
decreasing_by all_goals (simp only [MAX_RETRIES] at *; omega)

/-- Every call of `scrape_page_run` either returns an `.ok` leaf counting one
attempt, or retries once more with the budget strictly decreasing. -/
theorem scrape_page_run_cases (env : Nat → AttemptOutcome) (rc : Nat) :
    (∃ listings, scrape_page_run env rc = (Except.ok listings, 1)) ∨
      (rc < MAX_RETRIES ∧ scrape_page_run env rc =
        ((scrape_page_run env (rc + 1)).1, (scrape_page_run env (rc + 1)).2 + 1)) := by
  cases henv : env rc with
  | navException msg =>
    by_cases h3 : rc < MAX_RETRIES
    · exact Or.inr ⟨h3, by rw [scrape_page_run]; simp only [henv]; rw [dif_pos h3]⟩
    · exact Or.inl ⟨[], by rw [scrape_page_run]; simp only [henv]; rw [dif_neg h3]⟩
  | noResponse =>
    by_cases h3 : rc < MAX_RETRIES
    · exact Or.inr ⟨h3, by rw [scrape_page_run]; simp only [henv]; rw [dif_pos h3]⟩
    · exact Or.inl ⟨[], by rw [scrape_page_run]; simp only [henv]; rw [dif_neg h3]⟩
  | response status blocked articles =>
    rw [scrape_page_run]
    simp only [henv]
    by_cases h429 : status = 429
    · rw [if_pos h429]
      by_cases h3 : rc < MAX_RETRIES
      · exact Or.inr ⟨h3, by rw [dif_pos h3]⟩
      · exact Or.inl ⟨[], by rw [dif_neg h3]⟩
    · rw [if_neg h429]
      by_cases h5 : 500 ≤ status
      · rw [if_pos h5]
        by_cases h3 : rc < MAX_RETRIES
        · exact Or.inr ⟨h3, by rw [dif_pos h3]⟩
        · exact Or.inl ⟨[], by rw [dif_neg h3]⟩
      · rw [if_neg h5]
        by_cases h4 : 400 ≤ status
        · rw [if_pos h4]
          exact Or.inl ⟨[], rfl⟩
        · rw [if_neg h4]
          by_cases hb : blocked = true
          · rw [if_pos hb]
            by_cases h3 : rc < MAX_RETRIES
            · exact Or.inr ⟨h3, by rw [dif_pos h3]⟩
            · exact Or.inl ⟨[], by rw [dif_neg h3]⟩
          · rw [if_neg hb]
            by_cases hlen : articles.length = 0
            · rw [if_pos hlen]
              by_cases h1 : rc < 1
              · refine Or.inr ⟨?_, by rw [dif_pos h1]⟩
                simp only [MAX_RETRIES]; omega
              · exact Or.inl ⟨articles.filterMap id, by rw [dif_neg h1]⟩
            · rw [if_neg hlen]
              exact Or.inl ⟨articles.filterMap id, rfl⟩

/-- Combined shape invariant: `scrape_page` always yields an `.ok` listing
list, in at least one and at most `max(MAX_RETRIES + 1 - retry_count, 1)`
attempts. -/
theorem scrape_page_run_bound (env : Nat → AttemptOutcome) :
    ∀ (n rc : Nat), MAX_RETRIES + 1 - rc ≤ n →
      (∃ listings, (scrape_page_run env rc).1 = Except.ok listings) ∧
        1 ≤ (scrape_page_run env rc).2 ∧
        (scrape_page_run env rc).2 ≤ max (MAX_RETRIES + 1 - rc) 1 := by
  intro n
  induction n with
  | zero =>
    intro rc hn
    rcases scrape_page_run_cases env rc with ⟨l, hl⟩ | ⟨h3, hl⟩
    · rw [hl]
      exact ⟨⟨l, rfl⟩, le_refl 1, le_max_right _ 1⟩
    · exfalso
      simp only [MAX_RETRIES] at hn h3
      omega
  | succ n ih =>
    intro rc hn
    rcases scrape_page_run_cases env rc with ⟨l, hl⟩ | ⟨h3, hl⟩
    · rw [hl]
      exact ⟨⟨l, rfl⟩, le_refl 1, le_max_right _ 1⟩
    · have hrec := ih (rc + 1) (by simp only [MAX_RETRIES] at hn h3 ⊢; omega)
      rw [hl]
      refine ⟨hrec.1, Nat.le_add_left 1 _, ?_⟩
      have h2 := hrec.2.2
      simp only [MAX_RETRIES] at h2 h3 ⊢
      omega

/-- C5: `scrape_page` is total over its outcomes: it always returns a
(possibly empty) listing list and never propagates an exception; exhausting
the retry budget in the no-response, exception, 429, 5xx and blocked-page
branches returns the empty list instead of raising; and a non-429 4xx
status returns the empty list in a single attempt, with no retry. -/
theorem scrape_page_never_raises :
    (∀ (env : Nat → AttemptOutcome) (retry_count : Nat),
      ∃ listings, (scrape_page_run env retry_count).1 = Except.ok listings) ∧
      (∀ (env : Nat → AttemptOutcome) (msg : String),
        env MAX_RETRIES = .navException msg →
        (scrape_page_run env MAX_RETRIES).1 = Except.ok []) ∧
      (∀ env : Nat → AttemptOutcome, env MAX_RETRIES = .noResponse →
        (scrape_page_run env MAX_RETRIES).1 = Except.ok []) ∧
      (∀ (env : Nat → AttemptOutcome) (blocked : Bool)
          (articles : List (Option RawListing)),
        env MAX_RETRIES = .response 429 blocked articles →
        (scrape_page_run env MAX_RETRIES).1 = Except.ok []) ∧
      (∀ (env : Nat → AttemptOutcome) (status : Nat) (blocked : Bool)
          (articles : List (Option RawListing)), 500 ≤ status →
        env MAX_RETRIES = .response status blocked articles →
        (scrape_page_run env MAX_RETRIES).1 = Except.ok []) ∧
      (∀ (env : Nat → AttemptOutcome) (status : Nat)
          (articles : List (Option RawListing)), status < 400 →
        env MAX_RETRIES = .response status true articles →
        (scrape_page_run env MAX_RETRIES).1 = Except.ok []) ∧
      (∀ (env : Nat → AttemptOutcome) (retry_count status : Nat) (blocked : Bool)
          (articles : List (Option RawListing)),
        env retry_count = .response status blocked articles →
        400 ≤ status → status < 500 → ¬ status = 429 →
        scrape_page_run env retry_count = (Except.ok [], 1)) := by
  refine ⟨?_, ?_, ?_, ?_, ?_, ?_, ?_⟩
  · intro env retry_count
    exact (scrape_page_run_bound env (MAX_RETRIES + 1 - retry_count) retry_count
      (le_refl _)).1
  · intro env msg henv
    rw [scrape_page_run]
    simp only [henv]
    rw [dif_neg (lt_irrefl MAX_RETRIES)]
  · intro env henv
    rw [scrape_page_run]
    simp only [henv]
    rw [dif_neg (lt_irrefl MAX_RETRIES)]
  · intro env blocked articles henv
    rw [scrape_page_run]
    simp only [henv]
    simp [MAX_RETRIES]
  · intro env status blocked articles h5 henv
    have hne : ¬ status = 429 := by omega
    rw [scrape_page_run]
    simp only [henv]
    simp [MAX_RETRIES, hne, h5]
  · intro env status articles h4 henv
    have hne : ¬ status = 429 := by omega
    have hn5 : ¬ 500 ≤ status := by omega
    have hn4 : ¬ 400 ≤ status := by omega
    rw [scrape_page_run]
    simp only [henv]
    simp [MAX_RETRIES, hne, hn5, hn4]
  · intro env retry_count status blocked articles henv h400 h500 h429
    have hn5 : ¬ 500 ≤ status := by omega
    rw [scrape_page_run]
    simp only [henv]
    simp [h429, hn5, h400]

/-- Witness for C5: a 404 at the first attempt returns the empty list with
no retry even though the page holds a parseable article, and an exhausted
no-response budget degrades to the empty list. -/
theorem scrape_page_never_raises_witness :
    ((fun _ : Nat => AttemptOutcome.response 404 false [some (mkListing (some "1"))]) 0 =
        AttemptOutcome.response 404 false [some (mkListing (some "1"))] ∧
      400 ≤ 404 ∧ 404 < 500 ∧ ¬ 404 = 429 ∧
      (fun _ : Nat => AttemptOutcome.noResponse) MAX_RETRIES = AttemptOutcome.noResponse) ∧
      scrape_page_run (fun _ => AttemptOutcome.response 404 false
        [some (mkListing (some "1"))]) 0 = (Except.ok [], 1) ∧
      (scrape_page_run (fun _ => AttemptOutcome.noResponse) MAX_RETRIES).1 =
        Except.ok [] :=
  ⟨⟨rfl, by omega, by omega, by omega, rfl⟩,
    scrape_page_never_raises.2.2.2.2.2.2 _ 0 404 false _ rfl (by omega) (by omega)
      (by omega),
    scrape_page_never_raises.2.2.1 _ rfl⟩

/-- C8: `scrape_page` terminates for every outcome sequence: the retry
counter increases strictly under its bounded guards, so the call at
`retry_count` performs at least one and at most
`max(MAX_RETRIES + 1 - retry_count, 1)` attempts; in particular the
external call at `retry_count = 0` performs at most 4 attempts (the initial
attempt plus at most `MAX_RETRIES` retries) before a list is returned. -/
theorem scrape_page_attempts_bounded :
    (∀ (env : Nat → AttemptOutcome) (retry_count : Nat),
      1 ≤ (scrape_page_run env retry_count).2) ∧
      (∀ (env : Nat → AttemptOutcome) (retry_count : Nat),
        (scrape_page_run env retry_count).2 ≤
          max (MAX_RETRIES + 1 - retry_count) 1) ∧
      (∀ env : Nat → AttemptOutcome, (scrape_page_run env 0).2 ≤ MAX_RETRIES + 1) := by
  refine ⟨?_, ?_, ?_⟩
  · intro env retry_count
    exact (scrape_page_run_bound env (MAX_RETRIES + 1 - retry_count) retry_count
      (le_refl _)).2.1
  · intro env retry_count
    exact (scrape_page_run_bound env (MAX_RETRIES + 1 - retry_count) retry_count
      (le_refl _)).2.2
  · intro env
    have h := (scrape_page_run_bound env (MAX_RETRIES + 1) 0 (le_refl _)).2.2
    simpa using h

end ScrapePage

section ProgressStream

/-- State carried between iterations of the SSE polling loop `generate()`
in `get_scraper_progress`: the payload string emitted last and the wall
time of the last emission. -/
structure GenState where
  last_payload : Option String
  last_activity : ℤ
deriving DecidableEq

/-- An SSE event emitted by the polling loop. -/
inductive SseEvent where
  | progressEv (payload : String)
  | completeEv (payload : String)
  | ping (timestamp : ℤ)
deriving DecidableEq

/-- What one iteration of the polling loop observes: the wall time, the
serialized snapshot payload, and the terminal flag computed as
`bool(progress.get('completed')) or job.status in ('completed', 'failed')`. -/
structure Observation where
  now : ℤ
  payload : String
  completed : Bool
deriving DecidableEq

/-- One iteration of the `while True` loop of `generate()`: when the
payload differs from the last emitted one, emit a `complete` event and end
the stream if terminal, else a `progress` event and record the new payload
and activity time; with an unchanged payload, emit one keepalive `ping`
only when 30 seconds have passed since the last activity, resetting the
idle clock.  `none` as the returned state means the stream ended. -/
def generate_step (st : GenState) (o : Observation) :
    List SseEvent × Option GenState :=
  if some o.payload ≠ st.last_payload then
    let ev := if o.completed then SseEvent.completeEv o.payload
      else SseEvent.progressEv o.payload
    if o.completed then ([ev], none)
    else ([ev], some { last_payload := some o.payload, last_activity := o.now })
  else if 30 ≤ o.now - st.last_activity then
    ([SseEvent.ping o.now], some { st with last_activity := o.now })
  else ([], some st)

/-- The polling loop run over a finite observation trace, concatenating the
emitted events and stopping when an iteration ends the stream. -/
def generate_run (st : GenState) : List Observation → List SseEvent
  | [] => []
  | o :: rest =>
    match generate_step st o with
    | (evs, none) => evs
    | (evs, some st2) => evs ++ generate_run st2 rest

/-- Sixty one-second polls all seeing the already-emitted payload. -/
def idleTrace : List Observation :=
  (List.range 60).map (fun i => { now := (i : ℤ) + 1, payload := "p", completed := false })

/-- C7: the SSE progress stream de-duplicates and keeps alive: an
observation equal to the last emitted payload within the 30-second window
emits nothing (so two consecutive identical snapshots yield one progress
event); once 30 idle seconds pass, exactly one ping is emitted and the
idle clock resets, so sixty seconds of unchanged one-second polls yield
exactly the two pings at t = 30 and t = 60; and a terminal snapshot emits
one `complete` event and ends the stream, discarding later observations. -/
theorem generate_dedup_keepalive_terminal :
    (∀ (st : GenState) (o : Observation), some o.payload = st.last_payload →
      o.now - st.last_activity < 30 → generate_step st o = ([], some st)) ∧
      (∀ (st : GenState) (o : Observation), some o.payload = st.last_payload →
        30 ≤ o.now - st.last_activity →
        generate_step st o =
          ([SseEvent.ping o.now], some { st with last_activity := o.now })) ∧
      (∀ (st : GenState) (o : Observation), o.completed = true →
        some o.payload ≠ st.last_payload →
        generate_step st o = ([SseEvent.completeEv o.payload], none)) ∧
      generate_run { last_payload := none, last_activity := 0 }
          [{ now := 1, payload := "p", completed := false },
           { now := 2, payload := "p", completed := false }] =
        [SseEvent.progressEv "p"] ∧
      generate_run { last_payload := some "p", last_activity := 0 } idleTrace =
        [SseEvent.ping 30, SseEvent.ping 60] ∧
      generate_run { last_payload := none, last_activity := 0 }
          [{ now := 1, payload := "p", completed := false },
           { now := 2, payload := "q", completed := true },
           { now := 3, payload := "r", completed := false }] =
        [SseEvent.progressEv "p", SseEvent.completeEv "q"] := by
  refine ⟨?_, ?_, ?_, by decide, by decide, by decide⟩
  · intro st o heq hlt
    have h2 : ¬ 30 ≤ o.now - st.last_activity := not_le.mpr hlt
    simp [generate_step, heq, h2]
  · intro st o heq hge
    simp [generate_step, heq, hge]
  · intro st o hc hne
    simp [generate_step, hne, hc]

/-- Witness for C7: a duplicate snapshot inside the idle window emits
nothing, one after 31 idle seconds emits exactly one ping, and a changed
terminal snapshot emits the final complete event. -/
theorem generate_dedup_keepalive_terminal_witness :
    (some "p" = (GenState.mk (some "p") 0).last_payload ∧
        (Observation.mk 5 "p" false).now - (GenState.mk (some "p") 0).last_activity < 30 ∧
        generate_step (GenState.mk (some "p") 0) (Observation.mk 5 "p" false) =
          ([], some (GenState.mk (some "p") 0))) ∧
      (30 ≤ (Observation.mk 31 "p" false).now - (GenState.mk (some "p") 0).last_activity ∧
        generate_step (GenState.mk (some "p") 0) (Observation.mk 31 "p" false) =
          ([SseEvent.ping 31], some (GenState.mk (some "p") 31))) ∧
      ((Observation.mk 32 "q" true).completed = true ∧
        some "q" ≠ (GenState.mk (some "p") 0).last_payload ∧
        generate_step (GenState.mk (some "p") 0) (Observation.mk 32 "q" true) =
          ([SseEvent.completeEv "q"], none)) :=
  ⟨⟨rfl, by norm_num,
      generate_dedup_keepalive_terminal.1 (GenState.mk (some "p") 0)
        (Observation.mk 5 "p" false) rfl (by norm_num)⟩,
    ⟨by norm_num,
      generate_dedup_keepalive_terminal.2.1 (GenState.mk (some "p") 0)
        (Observation.mk 31 "p" false) rfl (by norm_num)⟩,
    ⟨rfl, by decide,
      generate_dedup_keepalive_terminal.2.2.1 (GenState.mk (some "p") 0)
        (Observation.mk 32 "q" true) rfl (by decide)⟩⟩

end ProgressStream

section Orchestration

/-- Helper for `urlparse_path`: drop the characters up to and including the
first `//` (the scheme separator of the absolute URLs built here). -/
def dropThroughSlashSlash : List Char → List Char
  | [] => []
  | '/' :: '/' :: rest => rest
  | _ :: rest => dropThroughSlashSlash rest

/-- `urlparse(url).path` for the absolute URLs handled here: skip
`scheme://` and the host, keep the path and cut the query string off. -/
def urlparse_path (url : String) : String :=
  String.mk (((dropThroughSlashSlash url.data).dropWhile
    (fun c => c ≠ '/')).takeWhile (fun c => c ≠ '?'))

/-- `_build_scrape_url(category, keyword)`: the slug for the category comes
from `CATEGORY_DEFINITIONS` (modelled by `slug_of`; the source falls back
to `notebooks` for unknown categories), an optional city slug sits between
slug and category, and a non-empty keyword is appended as the
`keywords` query parameter (`encode` models `quote_plus`). -/
def build_scrape_url (slug_of encode : String → String)
    (city_slug category keyword : String) : String :=
  let base :=
    if city_slug = "" then
      "https://www.kleinanzeigen.de/s-" ++ slug_of category ++ "/" ++ category
    else
      "https://www.kleinanzeigen.de/s-" ++ slug_of category ++ "/" ++ city_slug
        ++ "/" ++ category
  if keyword = "" then base else base ++ "?keywords=" ++ encode keyword

/-- `_scrape_task` with its robots gate made explicit: the task's search URL
path is checked through `robots_checker.is_allowed`; a denial is a per-task
soft skip returning `([], 0)`, otherwise the pagination loop runs. -/
def scrape_task_full (is_allowed : String → Bool) (slug_of encode : String → String)
    (city_slug : String) (pages : Nat → List RawListing) (page_limit : Nat)
    (seen : Finset String) (category keyword : String) :
    List RawListing × Nat × Finset String :=
  scrape_task
    (is_allowed (urlparse_path (build_scrape_url slug_of encode city_slug category keyword)))
    pages page_limit seen

/-- `KleinanzeigenScraper.scrape(start_page)`: robots rules are fetched,
then a denial of the base URL's path raises before any page fetch;
otherwise pages `start_page .. start_page + page_limit - 1` are scraped in
order and their listings concatenated.  `is_allowed` is the fetched robots
verdict and `page_results n` the (total) value of `scrape_page` on page `n`. -/
def scraper_scrape (is_allowed : String → Bool) (base_url : String)
    (page_results : Nat → List RawListing) (start_page page_limit : Nat) :
    Except String (List RawListing) :=
  if is_allowed (urlparse_path base_url) then
    Except.ok ((List.range' start_page page_limit).flatMap page_results)
  else
    Except.error ("Scraping not allowed by robots.txt for " ++ urlparse_path base_url)

/-- The task loop of `_run_scraper_job`'s single-session mode once a
browsing session is open and robots rules are fetched: every task runs
`_scrape_task` and merges its batch into `listings_by_id`, accumulating
`total_pages_scraped` and the job-wide seen-id set; a robots denial was
already consumed inside `_scrape_task`, so the loop itself never raises. -/
def run_single_worker_tasks (is_allowed : String → Bool)
    (slug_of encode : String → String) (city_slug : String)
    (pages_for : String → String → Nat → List RawListing)
    (page_limit : Nat) (tasks : List (String × String)) :
    MergedMap × Nat × Finset String :=
  tasks.foldl
    (fun acc task =>
      let r := scrape_task_full is_allowed slug_of encode city_slug
        (pages_for task.1 task.2) page_limit acc.2.2 task.1 task.2
      (merge_task_results task.1 task.2 r.1 acc.1, acc.2.1 + r.2.1, r.2.2))
    ([], 0, ∅)

/-- The single-session mode of `_run_scraper_job`: proxy attempts (primary,
remaining pool, then always the direct connection) are tried in order until
a session opens, and the job raises only when every attempt fails (the last
open error is re-raised; `open_results` holds one outcome per attempt).
Once a session is open the task loop runs to completion. -/
def run_scraper_job_single (open_results : List Bool) (is_allowed : String → Bool)
    (slug_of encode : String → String) (city_slug : String)
    (pages_for : String → String → Nat → List RawListing)
    (page_limit : Nat) (tasks : List (String × String)) :
    Except String (MergedMap × Nat) :=
  match open_results with
  | [] => Except.error "Playwright launch failed on every proxy attempt"
  | ok :: rest =>
    if ok then
      let r := run_single_worker_tasks is_allowed slug_of encode city_slug
        pages_for page_limit tasks
      Except.ok (r.1, r.2.1)
    else
      run_scraper_job_single rest is_allowed slug_of encode city_slug
        pages_for page_limit tasks

/-- The events a worker pushes on the shared result queue in the
multi-worker mode of `_run_scraper_job` (concurrency 2-4). -/
inductive WorkerEvent where
  | taskStarted (category keyword : String) (worker_id : Nat)
  | taskCompleted (category keyword : String) (pages_scraped : Nat)
      (listings : List RawListing) (worker_id : Nat)
  | taskError (category keyword error : String) (worker_id : Nat)
  | workerProxyFailed (worker_id : Nat) (proxy error : String)
  | workerError (worker_id : Nat) (error : String)
  | workerDone (worker_id : Nat)
deriving DecidableEq

/-- The task loop of one multi-worker-mode worker once its session is open
and its robots rules are fetched: for every task it dequeues before its
sentinel it emits `task_started`, runs `_scrape_task` (threading the
job-wide seen-id set) and emits `task_completed` with the batch and page
count.  The `task_error` branch exists in the source for an exception
escaping `_scrape_task`; the embedded `_scrape_task` is total, so the
guard never fires here. -/
def worker_task_events (is_allowed : String → Bool) (slug_of encode : String → String)
    (city_slug : String) (pages_for : String → String → Nat → List RawListing)
    (page_limit : Nat) (worker_id : Nat) :
    List (String × String) → Finset String → List WorkerEvent × Finset String
  | [], seen => ([], seen)
  | (category, keyword) :: rest, seen =>
    let r := scrape_task_full is_allowed slug_of encode city_slug
      (pages_for category keyword) page_limit seen category keyword
    let next := worker_task_events is_allowed slug_of encode city_slug pages_for
      page_limit worker_id rest r.2.2
    (WorkerEvent.taskStarted category keyword worker_id ::
      WorkerEvent.taskCompleted category keyword r.2.1 r.1 worker_id :: next.1,
      next.2)

/-- The event stream of all workers, in one serialization: per worker,
either its session opened (after its proxy-attempt chain) and its dequeued
tasks run, followed by `worker_done`, or every proxy attempt failed and the
worker emits `worker_error` then `worker_done` without blocking the others.
`workers` lists, per worker, whether a session opened and the tasks that
worker dequeued from the shared queue (the queue hands each task to exactly
one worker; an arbitrary interleaving of the per-worker streams is handled
by quantifying over event lists in the theorems). -/
def run_workers (is_allowed : String → Bool) (slug_of encode : String → String)
    (city_slug : String) (pages_for : String → String → Nat → List RawListing)
    (page_limit : Nat) :
    Nat → List (Bool × List (String × String)) → Finset String → List WorkerEvent
  | _, [], _ => []
  | worker_id, (opened, worker_tasks) :: rest, seen =>
    if opened then
      let r := worker_task_events is_allowed slug_of encode city_slug pages_for
        page_limit worker_id worker_tasks seen
      r.1 ++ (WorkerEvent.workerDone worker_id ::
        run_workers is_allowed slug_of encode city_slug pages_for page_limit
          (worker_id + 1) rest r.2)
    else
      WorkerEvent.workerError worker_id "launch failed" ::
        WorkerEvent.workerDone worker_id ::
        run_workers is_allowed slug_of encode city_slug pages_for page_limit
          (worker_id + 1) rest seen

/-- The aggregator loop of the multi-worker mode: it consumes the event
stream until every `worker_done` arrived, folding each `task_completed`
batch into `listings_by_id` via `_merge_task_results` and accumulating
`total_pages_scraped`; all other events only update progress or logs.
The loop contains no raise. -/
def aggregate : List WorkerEvent → MergedMap × Nat → MergedMap × Nat
  | [], acc => acc
  | ev :: rest, acc =>
    match ev with
    | WorkerEvent.taskCompleted category keyword pages_scraped listings _ =>
      aggregate rest (merge_task_results category keyword listings acc.1,
        acc.2 + pages_scraped)
    | _ => aggregate rest acc

/-- The multi-worker mode of `_run_scraper_job` end to end: spawn workers,
aggregate their event stream, return the merged map and page total.  This
branch of the source contains no job-level raise: proxy-exhausted workers
only emit `worker_error`, and the aggregator runs to completion once every
`worker_done` arrived, so the result is always `Except.ok`. -/
def run_scraper_job_multi (is_allowed : String → Bool) (slug_of encode : String → String)
    (city_slug : String) (pages_for : String → String → Nat → List RawListing)
    (page_limit : Nat) (workers : List (Bool × List (String × String)))
    (seen : Finset String) : Except String (MergedMap × Nat) :=
  Except.ok (aggregate
    (run_workers is_allowed slug_of encode city_slug pages_for page_limit 0 workers seen)
    ([], 0))

/-- With robots rules denying every path, a worker's task loop emits only
`task_started` and empty zero-page `task_completed` events and leaves the
seen set untouched, whatever its dequeued tasks and page environment. -/
theorem worker_task_events_denied (is_allowed : String → Bool)
    (slug_of encode : String → String) (city_slug : String)
    (pages_for : String → String → Nat → List RawListing) (page_limit : Nat)
    (hdeny : ∀ p, is_allowed p = false) :
    ∀ (worker_tasks : List (String × String)) (worker_id : Nat) (seen : Finset String),
      worker_task_events is_allowed slug_of encode city_slug pages_for page_limit
          worker_id worker_tasks seen =
        (worker_tasks.flatMap (fun t =>
          [WorkerEvent.taskStarted t.1 t.2 worker_id,
           WorkerEvent.taskCompleted t.1 t.2 0 [] worker_id]), seen) := by
  intro worker_tasks
  induction worker_tasks with
  | nil => intro worker_id seen; rfl
  | cons t rest ih =>
    intro worker_id seen
    obtain ⟨c, k⟩ := t
    have hskip : scrape_task_full is_allowed slug_of encode city_slug
        (pages_for c k) page_limit seen c k = ([], 0, seen) := by
      rw [scrape_task_full, hdeny, scrape_task, if_neg]
      simp
    simp only [worker_task_events, hskip, ih, List.flatMap_cons]
    rfl

/-- Schedule independence of the aggregation under empty batches: an event
list whose every `task_completed` event carries an empty batch and zero
pages — in any arrival order — leaves the aggregator state unchanged. -/
theorem aggregate_of_empty_batches :
    ∀ (events : List WorkerEvent) (m : MergedMap) (pages : Nat),
      (∀ (c k : String) (ps : Nat) (l : List RawListing) (w : Nat),
        WorkerEvent.taskCompleted c k ps l w ∈ events → l = [] ∧ ps = 0) →
      aggregate events (m, pages) = (m, pages) := by
  intro events
  induction events with
  | nil => intro m pages h; rfl
  | cons ev rest ih =>
    intro m pages h
    have hrest : ∀ (c k : String) (ps : Nat) (l : List RawListing) (w : Nat),
        WorkerEvent.taskCompleted c k ps l w ∈ rest → l = [] ∧ ps = 0 :=
      fun c k ps l w hmem => h c k ps l w (List.mem_cons_of_mem ev hmem)
    cases ev with
    | taskCompleted c k ps l w =>
      obtain ⟨hl, hps⟩ := h c k ps l w (List.mem_cons_self _ _)
      subst hl
      subst hps
      exact ih m pages hrest
    | taskStarted c k w => exact ih m pages hrest
    | taskError c k e w => exact ih m pages hrest
    | workerProxyFailed w p e => exact ih m pages hrest
    | workerError w e => exact ih m pages hrest
    | workerDone w => exact ih m pages hrest

/-- With robots rules denying every path, every `task_completed` event in
the serialized multi-worker stream carries an empty batch and zero pages. -/
theorem run_workers_denied_completed (is_allowed : String → Bool)
    (slug_of encode : String → String) (city_slug : String)
    (pages_for : String → String → Nat → List RawListing) (page_limit : Nat)
    (hdeny : ∀ p, is_allowed p = false) :
    ∀ (workers : List (Bool × List (String × String))) (worker_id : Nat)
      (seen : Finset String) (c k : String) (ps : Nat) (l : List RawListing) (w : Nat),
      WorkerEvent.taskCompleted c k ps l w ∈
          run_workers is_allowed slug_of encode city_slug pages_for page_limit
            worker_id workers seen →
      l = [] ∧ ps = 0 := by
  intro workers
  induction workers with
  | nil =>
    intro worker_id seen c k ps l w hmem
    exact absurd hmem (List.not_mem_nil _)
  | cons wk rest ih =>
    intro worker_id seen c k ps l w hmem
    obtain ⟨opened, worker_tasks⟩ := wk
    cases opened with
    | true =>
      have hstream : run_workers is_allowed slug_of encode city_slug pages_for
          page_limit worker_id ((true, worker_tasks) :: rest) seen =
          (worker_tasks.flatMap (fun t =>
            [WorkerEvent.taskStarted t.1 t.2 worker_id,
             WorkerEvent.taskCompleted t.1 t.2 0 [] worker_id])) ++
            (WorkerEvent.workerDone worker_id ::
              run_workers is_allowed slug_of encode city_slug pages_for page_limit
                (worker_id + 1) rest seen) := by
        rw [run_workers]
        simp [worker_task_events_denied is_allowed slug_of encode city_slug pages_for
          page_limit hdeny worker_tasks worker_id seen]
      rw [hstream] at hmem
      rcases List.mem_append.mp hmem with hblock | htail
      · rcases List.mem_flatMap.mp hblock with ⟨t, ht, hev⟩
        rcases List.mem_cons.mp hev with heq | hev2
        · exact absurd heq (by simp)
        · rcases List.mem_cons.mp hev2 with heq | hnil
          · injection heq with h1 h2 h3 h4 h5
            exact ⟨h4, h3⟩
          · exact absurd hnil (List.not_mem_nil _)
      · rcases List.mem_cons.mp htail with heq | hrest
        · exact absurd heq (by simp)
        · exact ih (worker_id + 1) seen c k ps l w hrest
    | false =>
      have hstream : run_workers is_allowed slug_of encode city_slug pages_for
          page_limit worker_id ((false, worker_tasks) :: rest) seen =
          WorkerEvent.workerError worker_id "launch failed" ::
            WorkerEvent.workerDone worker_id ::
            run_workers is_allowed slug_of encode city_slug pages_for page_limit
              (worker_id + 1) rest seen := by
        rw [run_workers]
        simp
      rw [hstream] at hmem
      rcases List.mem_cons.mp hmem with heq | hmem2
      · exact absurd heq (by simp)
      · rcases List.mem_cons.mp hmem2 with heq | hrest
        · exact absurd heq (by simp)
        · exact ih (worker_id + 1) seen c k ps l w hrest

/-- C1 counterexample: with robots rules that deny every path — including
the job's root search path `/s-notebooks/c278` — a directly opened session,
a page environment that would yield a listing on every page, and the
default single task, the job orchestration does not raise: it returns
`Except.ok` with zero listings and zero fetched pages, because
`_run_scraper_job` handles the denial as a per-task soft skip inside
`_scrape_task` and has no job-fatal root-path check. -/
theorem run_scraper_job_robots_denied_no_raise :
    run_scraper_job_single [true] (fun _ => false) (fun _ => "notebooks")
        (fun k => k) "" (fun _ _ _ => [mkListing (some "123456789")]) 5
        [("c278", "")] =
      Except.ok ([], 0) := rfl

/-- C1 amended: a robots denial of the root search path is fatal only in
the standalone `KleinanzeigenScraper.scrape` entry point, which raises
before any page fetch; the job orchestration `_run_scraper_job` never
raises on robots denials in either concurrency mode: with rules denying
every path, the single-session mode completes with `Except.ok`, fetches no
pages and returns zero listings; every multi-worker task loop emits only
empty zero-page completions and leaves the seen set untouched; the
multi-worker job returns `Except.ok` with zero listings and zero pages for
every worker count, session-open pattern and task assignment; and the
aggregation of any arrival order of such events leaves the merged state
unchanged — each task is soft-skipped, whatever the configuration of
categories, keywords and concurrency. -/
theorem robots_root_denial_fatal_only_in_scrape
    (is_allowed : String → Bool) (base_url : String)
    (page_results : Nat → List RawListing) (start_page page_limit : Nat)
    (slug_of encode : String → String) (city_slug : String)
    (pages_for : String → String → Nat → List RawListing)
    (open_rest : List Bool) (tasks : List (String × String))
    (hdeny : ∀ p, is_allowed p = false) :
    scraper_scrape is_allowed base_url page_results start_page page_limit =
        Except.error ("Scraping not allowed by robots.txt for " ++ urlparse_path base_url) ∧
      run_scraper_job_single (true :: open_rest) is_allowed slug_of encode city_slug
          pages_for page_limit tasks =
        Except.ok ([], 0) ∧
      (∀ (worker_tasks : List (String × String)) (worker_id : Nat)
          (seen : Finset String),
        worker_task_events is_allowed slug_of encode city_slug pages_for page_limit
            worker_id worker_tasks seen =
          (worker_tasks.flatMap (fun t =>
            [WorkerEvent.taskStarted t.1 t.2 worker_id,
             WorkerEvent.taskCompleted t.1 t.2 0 [] worker_id]), seen)) ∧
      (∀ (workers : List (Bool × List (String × String))) (seen : Finset String),
        run_scraper_job_multi is_allowed slug_of encode city_slug pages_for
            page_limit workers seen =
          Except.ok ([], 0)) ∧
      (∀ (events : List WorkerEvent) (m : MergedMap) (pages : Nat),
        (∀ (c k : String) (ps : Nat) (l : List RawListing) (w : Nat),
          WorkerEvent.taskCompleted c k ps l w ∈ events → l = [] ∧ ps = 0) →
        aggregate events (m, pages) = (m, pages)) := by
  refine ⟨?_, ?_, ?_, ?_, ?_⟩
  · rw [scraper_scrape, if_neg]
    simp [hdeny]
  · have hrun : run_single_worker_tasks is_allowed slug_of encode city_slug
        pages_for page_limit tasks = ([], 0, ∅) := by
      rw [run_single_worker_tasks]
      have hgen : ∀ (acc : MergedMap × Nat × Finset String),
          tasks.foldl
            (fun acc task =>
              let r := scrape_task_full is_allowed slug_of encode city_slug
                (pages_for task.1 task.2) page_limit acc.2.2 task.1 task.2
              (merge_task_results task.1 task.2 r.1 acc.1, acc.2.1 + r.2.1, r.2.2))
            acc = acc := by
        induction tasks with
        | nil => intro acc; rfl
        | cons t ts ih =>
          intro acc
          obtain ⟨m, n, s⟩ := acc
          rw [List.foldl_cons]
          have hskip : scrape_task_full is_allowed slug_of encode city_slug
              (pages_for t.1 t.2) page_limit s t.1 t.2 = ([], 0, s) := by
            rw [scrape_task_full, hdeny, scrape_task, if_neg]
            simp
          simp only [hskip]
          exact ih (m, n, s)
      exact hgen ([], 0, ∅)
    rw [run_scraper_job_single]
    simp [hrun]
  · exact worker_task_events_denied is_allowed slug_of encode city_slug pages_for
      page_limit hdeny
  · intro workers seen
    rw [run_scraper_job_multi,
      aggregate_of_empty_batches _ [] 0
        (run_workers_denied_completed is_allowed slug_of encode city_slug pages_for
          page_limit hdeny workers 0 seen)]
  · exact aggregate_of_empty_batches

/-- Witness for C1 (amended): at the all-denying robots rules, the scrape
entry point errors out while single-session and multi-worker orchestration
runs both return ok with zero listings. -/
theorem robots_root_denial_fatal_only_in_scrape_witness :
    (∀ p : String, (fun _ : String => false) p = false) ∧
      (scraper_scrape (fun _ => false) "https://www.kleinanzeigen.de/s-notebooks/c278"
          (fun _ => [mkListing (some "123456789")]) 1 5 =
        Except.error ("Scraping not allowed by robots.txt for " ++
          urlparse_path "https://www.kleinanzeigen.de/s-notebooks/c278") ∧
        run_scraper_job_single (true :: []) (fun _ => false) (fun _ => "notebooks")
            (fun k => k) "" (fun _ _ _ => [mkListing (some "123456789")]) 5
            [("c278", "")] =
          Except.ok ([], 0) ∧
        run_scraper_job_multi (fun _ => false) (fun _ => "notebooks") (fun k => k)
            "" (fun _ _ _ => [mkListing (some "123456789")]) 5
            [(true, [("c278", "dell")]), (false, [("c278", "hp")]),
              (true, [("c245", "dell")])] ∅ =
          Except.ok ([], 0)) :=
  ⟨fun _ => rfl,
    (robots_root_denial_fatal_only_in_scrape (fun _ => false)
      "https://www.kleinanzeigen.de/s-notebooks/c278"
      (fun _ => [mkListing (some "123456789")]) 1 5 (fun _ => "notebooks")
      (fun k => k) "" (fun _ _ _ => [mkListing (some "123456789")]) []
      [("c278", "")] (fun _ => rfl)).1,
    (robots_root_denial_fatal_only_in_scrape (fun _ => false)
      "https://www.kleinanzeigen.de/s-notebooks/c278"
      (fun _ => [mkListing (some "123456789")]) 1 5 (fun _ => "notebooks")
      (fun k => k) "" (fun _ _ _ => [mkListing (some "123456789")]) []
      [("c278", "")] (fun _ => rfl)).2.1,
    (robots_root_denial_fatal_only_in_scrape (fun _ => false)
      "https://www.kleinanzeigen.de/s-notebooks/c278"
      (fun _ => [mkListing (some "123456789")]) 1 5 (fun _ => "notebooks")
      (fun k => k) "" (fun _ _ _ => [mkListing (some "123456789")]) []
      [("c278", "")] (fun _ => rfl)).2.2.2.1
      [(true, [("c278", "dell")]), (false, [("c278", "hp")]),
        (true, [("c245", "dell")])] ∅⟩

end Orchestration

end KleinScrape
